import Mathlib

/-!
# Verification of the rendezvous-map API-mediation layer

A shallow embedding of the Express backend embedded in
`src/frontend/AddressForm.jsx` (the `server.js` portion): the result cache,
the rate limiter, the session quota tracker, the cached-request gateway
`handleCachedRequest`, the batch geocoder, and the route handlers, together
with the frontend midpoint computation from `src/frontend/Header.jsx`.

Timestamps (`Date.now()` values) are modelled as natural numbers; the
external HTTP call is modelled by an `UpstreamOutcome` parameter giving the
provider reply (status plus opaque body) or a transport failure.  The
JavaScript `Math.floor(n * 0.2)` is modelled as `n * 2 / 10` in natural
division, which agrees with the double-precision computation for all cache
sizes that can occur here.
-/

set_option autoImplicit false

/-- The three request categories the server tracks: the keys of the `cache`
object, of `CACHE_EXPIRY`, `CACHE_LIMITS`, and of the per-type counters. -/
inductive ApiCategory where
  | geocoding
  | places
  | details
deriving DecidableEq, Repr

/-- A provider reply body: the `status` field consulted by the gateway plus
the rest of the JSON payload, kept opaque as a string. -/
structure GData where
  status : String
  body : String
deriving DecidableEq, Repr

/-- A cache entry as stored by `handleCachedRequest`:
`{ data, timestamp, lastAccessed }`. -/
structure CacheEntry where
  data : GData
  timestamp : Nat
  lastAccessed : Nat
deriving DecidableEq, Repr

/-- One category's cache `Map`, as an insertion-ordered association list
(JavaScript `Map` iterates in insertion order; `set` on an existing key
updates in place). -/
abbrev Bucket := List (String × CacheEntry)

/-- `CACHE_EXPIRY` from the source (milliseconds). -/
def CACHE_EXPIRY : ApiCategory → Nat
  | .geocoding => 30 * 60 * 1000
  | .places => 15 * 60 * 1000
  | .details => 60 * 60 * 1000

/-- `CACHE_LIMITS` from the source. -/
def CACHE_LIMITS : ApiCategory → Nat
  | .geocoding => 1000
  | .places => 500
  | .details => 500

/-- The `cache` object: one `Map` per category. -/
structure Caches where
  geocoding : Bucket
  places : Bucket
  details : Bucket
deriving DecidableEq, Repr

/-- `cache[type]`. -/
def Caches.get (c : Caches) : ApiCategory → Bucket
  | .geocoding => c.geocoding
  | .places => c.places
  | .details => c.details

/-- Replace one category's bucket. -/
def Caches.put (c : Caches) (t : ApiCategory) (b : Bucket) : Caches :=
  match t with
  | .geocoding => { c with geocoding := b }
  | .places => { c with places := b }
  | .details => { c with details := b }

/-- `cacheMap.get(key)`. -/
def lookupEntry : Bucket → String → Option CacheEntry
  | [], _ => none
  | (k, e) :: rest, key => if k = key then some e else lookupEntry rest key

/-- `cacheMap.set(key, e)`: update in place if the key is present, else
append (JavaScript `Map` insertion-order semantics). -/
def setEntry : Bucket → String → CacheEntry → Bucket
  | [], key, e => [(key, e)]
  | (k, e0) :: rest, key, e =>
    if k = key then (k, e) :: rest else (k, e0) :: setEntry rest key e

/-- `cacheMap.delete(key)`: remove the entry with this key, if any. -/
def deleteKey : Bucket → String → Bucket
  | [], _ => []
  | (k, e) :: rest, key => if k = key then rest else (k, e) :: deleteKey rest key

/-- Stable insertion by `timestamp`, placing the new element before the
first existing element with a timestamp not smaller than its own. -/
def insertByTimestamp (e : String × CacheEntry) : Bucket → Bucket
  | [] => [e]
  | x :: xs =>
    if e.2.timestamp ≤ x.2.timestamp then e :: x :: xs
    else x :: insertByTimestamp e xs

/-- The stable ascending-by-`timestamp` sort performed in `manageCacheSize`
(`entries.sort((a, b) => a[1].timestamp - b[1].timestamp)`; ECMAScript
`Array.prototype.sort` is stable, so ties keep insertion order). -/
def sortByTimestamp : Bucket → Bucket
  | [] => []
  | x :: xs => insertByTimestamp x (sortByTimestamp xs)

/-- `manageCacheSize` from the source, with the category's limit as an
explicit parameter: when the map exceeds the limit, sort entries by
`timestamp` ascending and delete the oldest `Math.floor(size * 0.2)`. -/
def manageCacheSize (limit : Nat) (cacheMap : Bucket) : Bucket :=
  if cacheMap.length > limit then
    let entries := sortByTimestamp cacheMap
    let removeCount := entries.length * 2 / 10
    (entries.take removeCount).foldl (fun m e => deleteKey m e.1) cacheMap
  else cacheMap

/-- The `requestStats` object. -/
structure RequestStats where
  total : Nat
  geocoding : Nat
  places : Nat
  details : Nat
  limit : Nat
  lastReset : Nat
deriving DecidableEq, Repr

/-- `requestStats.total++; requestStats[type]++` in `handleCachedRequest`. -/
def recordCall (st : RequestStats) : ApiCategory → RequestStats
  | .geocoding => { st with total := st.total + 1, geocoding := st.geocoding + 1 }
  | .places => { st with total := st.total + 1, places := st.places + 1 }
  | .details => { st with total := st.total + 1, details := st.details + 1 }

/-- The `rateLimiter` object's mutable state. -/
structure RateLimiter where
  lastGeocodeRequest : Nat
  lastPlacesRequest : Nat
  lastDetailsRequest : Nat
  minInterval : Nat
deriving DecidableEq, Repr

/-- The stored last-call timestamp for a category. -/
def RateLimiter.lastFor (rl : RateLimiter) : ApiCategory → Nat
  | .geocoding => rl.lastGeocodeRequest
  | .places => rl.lastPlacesRequest
  | .details => rl.lastDetailsRequest

/-- `rateLimiter.canMakeRequest(type)` from the source.  Note the order of
operations, kept exactly as in the code: the per-category field is set to
`now` inside the `switch`, before the spacing check runs, so the field is
updated even when the function returns `false`. -/
def RateLimiter.canMakeRequest (rl : RateLimiter) (type : ApiCategory) (now : Nat) :
    Bool × RateLimiter :=
  let p :=
    match type with
    | .geocoding => (rl.lastGeocodeRequest, { rl with lastGeocodeRequest := now })
    | .places => (rl.lastPlacesRequest, { rl with lastPlacesRequest := now })
    | .details => (rl.lastDetailsRequest, { rl with lastDetailsRequest := now })
  if now - p.1 < rl.minInterval then (false, p.2) else (true, p.2)

/-- Outcome of the single `api.get(apiUrl)` call: either the provider
replied (any status) or the transport failed / timed out. -/
inductive UpstreamOutcome where
  | reply (data : GData)
  | transportFailure (msg : String)
deriving DecidableEq, Repr

/-- The errors `handleCachedRequest` can throw. -/
inductive ReqError where
  | limitReached
  | rateLimited
  | googleError (status : String)
  | transport (msg : String)
deriving DecidableEq, Repr

/-- The `error.message` string of each thrown error. -/
def ReqError.message : ReqError → String
  | .limitReached => "Request limit reached"
  | .rateLimited => "Rate limit reached, please try again in a moment"
  | .googleError s => "Google Maps API error: " ++ s
  | .transport m => m

/-- The whole mutable server state: the three caches, `requestStats`, and
the rate limiter. -/
structure ServerState where
  cache : Caches
  requestStats : RequestStats
  rateLimiter : RateLimiter
deriving DecidableEq, Repr

/-- Result of one gateway call: the value returned or the error thrown, the
state afterwards, and how many external `api.get` calls were issued. -/
structure FetchOutcome where
  result : Except ReqError GData
  state : ServerState
  upstreamCalls : Nat

/-- The cache-consultation prelude of `handleCachedRequest` (its first
lines): on a fresh entry, bump `lastAccessed` and return the data; an
expired or missing entry yields `none` and leaves the state unchanged. -/
def cacheGetStep (type : ApiCategory) (cacheKey : String) (now : Nat) (s : ServerState) :
    Option GData × ServerState :=
  match lookupEntry (s.cache.get type) cacheKey with
  | some cachedItem =>
    if now - cachedItem.timestamp < CACHE_EXPIRY type then
      let updated := { cachedItem with lastAccessed := now }
      (some cachedItem.data,
        { s with cache := s.cache.put type (setEntry (s.cache.get type) cacheKey updated) })
    else (none, s)
  | none => (none, s)

/-- `handleCachedRequest(type, cacheKey, apiUrl)` from the source.  `tNow`
is `Date.now()` during the synchronous prelude (cache check, quota check,
rate check); `tResp` is `Date.now()` when the provider reply is stored.
The external call itself is the `upstream` parameter; `upstreamCalls`
records whether `api.get` was reached. -/
def handleCachedRequest (type : ApiCategory) (cacheKey : String) (tNow tResp : Nat)
    (upstream : UpstreamOutcome) (s : ServerState) : FetchOutcome :=
  match cacheGetStep type cacheKey tNow s with
  | (some data, s1) => ⟨.ok data, s1, 0⟩
  | (none, s1) =>
    if s1.requestStats.total ≥ s1.requestStats.limit then
      ⟨.error .limitReached, s1, 0⟩
    else
      let cmr := s1.rateLimiter.canMakeRequest type tNow
      let s2 := { s1 with rateLimiter := cmr.2 }
      if cmr.1 then
        match upstream with
        | .transportFailure msg => ⟨.error (.transport msg), s2, 1⟩
        | .reply data =>
          let s3 := { s2 with requestStats := recordCall s2.requestStats type }
          if data.status ≠ "OK" ∧ data.status ≠ "ZERO_RESULTS" then
            ⟨.error (.googleError data.status), s3, 1⟩
          else
            let bucket := setEntry (s3.cache.get type) cacheKey ⟨data, tResp, tResp⟩
            let bucket2 := manageCacheSize (CACHE_LIMITS type) bucket
            ⟨.ok data, { s3 with cache := s3.cache.put type bucket2 }, 1⟩
      else ⟨.error .rateLimited, s2, 0⟩

/-- `checkSessionReset()`: after 24 hours, zero every numeric stat except
`limit`, clear all three caches, and restart the window at `now`. -/
def checkSessionReset (now : Nat) (s : ServerState) : ServerState :=
  if now - s.requestStats.lastReset > 24 * 60 * 60 * 1000 then
    { s with
      cache := ⟨[], [], []⟩,
      requestStats := { s.requestStats with
        total := 0, geocoding := 0, places := 0, details := 0, lastReset := now } }
  else s

/-- The `POST /api/stats/reset` handler's state effect: unconditionally
zero the counters, restart the window, and clear all caches. -/
def resetStats (now : Nat) (s : ServerState) : ServerState :=
  { s with
    cache := ⟨[], [], []⟩,
    requestStats := { s.requestStats with
      total := 0, geocoding := 0, places := 0, details := 0, lastReset := now } }

/-- The server state at process start (`t0` is `Date.now()` at startup). -/
def initialState (t0 : Nat) : ServerState :=
  ⟨⟨[], [], []⟩, ⟨0, 0, 0, 0, 50, t0⟩, ⟨0, 0, 0, 100⟩⟩

/-- One inbound event in the NON-OVERLAPPING (sequential) special case of
execution, where each gateway request runs to completion — including its
`await api.get` — before the next event begins: a whole cached-gateway
request, the per-request session-reset check, or a manual stats reset.
Interleavings of overlapping requests are not represented here; they are
modelled by `AsyncOp`/`applyAsyncOp` below, which split a request at its
suspension point. -/
inductive ServerOp where
  | fetchOp (type : ApiCategory) (cacheKey : String) (tNow tResp : Nat)
      (upstream : UpstreamOutcome)
  | sessionCheck (now : Nat)
  | statsResetOp (now : Nat)

/-- State effect of one non-overlapping event. -/
def applyOp (s : ServerState) : ServerOp → ServerState
  | .fetchOp type key tNow tResp upstream =>
    (handleCachedRequest type key tNow tResp upstream s).state
  | .sessionCheck now => checkSessionReset now s
  | .statsResetOp now => resetStats now s

/-- A state reachable by non-overlapping requests: the fold of whole-request
events over the start state. -/
def runOps (s : ServerState) (ops : List ServerOp) : ServerState :=
  ops.foldl applyOp s

/-- Fixed-size grouping, `batchSize = 5`, as in the `for (let i = 0; ...;
i += batchSize)` loops: `addresses.slice(i, i + 5)` per round. -/
def chunks5 : List String → List (List String)
  | [] => []
  | a :: rest => (a :: rest.take 4) :: chunks5 (rest.drop 4)
termination_by l => l.length
decreasing_by
  simp [List.length_drop]
  omega

/-- The per-item object built inside `batchGeocode`'s `batch.map`:
`{ address, data }` on success, `{ address, error: error.message }` on
failure.  An absent field is modelled as `none` / the empty string, so the
later `if (result.error)` truthiness test is `error ≠ ""`. -/
structure BatchItemRes where
  address : String
  data : Option GData
  error : String
deriving DecidableEq, Repr

/-- Wrap one item's gateway outcome as the batch item object. -/
def processGeocodeItem (outcome : Except ReqError GData) (address : String) : BatchItemRes :=
  match outcome with
  | .ok d => ⟨address, some d, ""⟩
  | .error e => ⟨address, none, e.message⟩

/-- The accumulated `{ results, errors }` pair returned by `batchGeocode`. -/
structure BatchOut where
  results : List (String × Option GData)
  errors : List (String × String)
deriving DecidableEq, Repr

/-- The `for (const result of batchResults)` loop: push each item onto
`errors` when `result.error` is truthy, else onto `results`. -/
def collectBatchResults : List BatchItemRes → BatchOut → BatchOut
  | [], acc => acc
  | r :: rest, acc =>
    if r.error ≠ "" then
      collectBatchResults rest { acc with errors := acc.errors ++ [(r.address, r.error)] }
    else
      collectBatchResults rest { acc with results := acc.results ++ [(r.address, r.data)] }

/-- `batch.map(async (address) => ...)`: each item's
`handleCachedRequest` outcome is abstracted as `outcome i address`, indexed
by the item's global position, since the concrete value depends on the
shared mutable state and promise interleaving. -/
def mapBatch (outcome : Nat → String → Except ReqError GData) :
    Nat → List String → List BatchItemRes
  | _, [] => []
  | i, a :: rest => processGeocodeItem (outcome i a) a :: mapBatch outcome (i + 1) rest

/-- The outer loop of `batchGeocode`: process the 5-groups in order,
collecting each group's settled results before the next begins. -/
def runGeocodeBatches (outcome : Nat → String → Except ReqError GData) :
    Nat → List (List String) → BatchOut → BatchOut
  | _, [], acc => acc
  | i, batch :: rest, acc =>
    runGeocodeBatches outcome (i + batch.length) rest
      (collectBatchResults (mapBatch outcome i batch) acc)

/-- `batchGeocode(addresses)` from the source. -/
def batchGeocode (outcome : Nat → String → Except ReqError GData)
    (addresses : List String) : BatchOut :=
  runGeocodeBatches outcome 0 (chunks5 addresses) ⟨[], []⟩

/-- The `POST /api/geocode/batch` handler: reject an empty array with a
400 error, otherwise run `batchGeocode` and return its aggregate. -/
def apiBatchGeocode (outcome : Nat → String → Except ReqError GData)
    (addresses : List String) : Except String BatchOut :=
  if addresses.isEmpty then .error "Array of addresses is required"
  else .ok (batchGeocode outcome addresses)

/-- Spec-side characterization (for the refinement statement): the
succeeded sequence is the in-order sublist of inputs whose outcome is not a
truthy error, each paired with its data. -/
def flatSucceeded (outcome : Nat → String → Except ReqError GData) :
    Nat → List String → List (String × Option GData)
  | _, [] => []
  | i, a :: rest =>
    let r := processGeocodeItem (outcome i a) a
    if r.error ≠ "" then flatSucceeded outcome (i + 1) rest
    else (r.address, r.data) :: flatSucceeded outcome (i + 1) rest

/-- Spec-side characterization: the failed sequence is the in-order sublist
of inputs whose outcome is a truthy error, each paired with its message. -/
def flatFailed (outcome : Nat → String → Except ReqError GData) :
    Nat → List String → List (String × String)
  | _, [] => []
  | i, a :: rest =>
    let r := processGeocodeItem (outcome i a) a
    if r.error ≠ "" then (r.address, r.error) :: flatFailed outcome (i + 1) rest
    else flatFailed outcome (i + 1) rest

/-- Errors surfaced by the single-item route handlers: a 400 validation
rejection or a 500 carrying the thrown message. -/
inductive ApiError where
  | invalidInput (msg : String)
  | serverError (msg : String)
deriving DecidableEq, Repr

/-- Result of a route handler: response, state afterwards, external calls
issued. -/
structure ApiOutcome where
  result : Except ApiError GData
  state : ServerState
  upstreamCalls : Nat

/-- The `GET /api/geocode` handler: reject a missing/empty `address` with
400, else normalize (`toLowerCase().trim()`) into the cache key and run the
gateway, turning a thrown error into a 500 with its message. -/
def apiGeocode (address : String) (tNow tResp : Nat) (upstream : UpstreamOutcome)
    (s : ServerState) : ApiOutcome :=
  if address = "" then ⟨.error (.invalidInput "Address is required"), s, 0⟩
  else
    let cacheKey := address.toLower.trim
    let o := handleCachedRequest .geocoding cacheKey tNow tResp upstream s
    match o.result with
    | .ok d => ⟨.ok d, o.state, o.upstreamCalls⟩
    | .error e => ⟨.error (.serverError e.message), o.state, o.upstreamCalls⟩

/-- A geocoded coordinate; latitude and longitude are modelled as exact
rationals. -/
structure Coord where
  lat : Rat
  lng : Rat
deriving DecidableEq, Repr

/-- The memoized `midpoint` of `MapView` in `Header.jsx`: with at least two
coordinates, the coordinate-wise mean of the first two; otherwise the fixed
Sacramento default.  The same memoized value is passed both as the map
`center` prop and as the center of `fetchNearbyPlaces`. -/
def mapMidpoint (coords : List Coord) : Coord :=
  match coords with
  | c0 :: c1 :: _ => ⟨(c0.lat + c1.lat) / 2, (c0.lng + c1.lng) / 2⟩
  | _ => ⟨38.5816, -121.4944⟩

/-- The per-category call counter inside `requestStats`. -/
def RequestStats.catCount (st : RequestStats) : ApiCategory → Nat
  | .geocoding => st.geocoding
  | .places => st.places
  | .details => st.details

/-- A gateway request suspended at `await api.get(apiUrl)`: the data its
continuation still needs (its category and cache key). -/
structure PendingCall where
  type : ApiCategory
  cacheKey : String
deriving DecidableEq, Repr

/-- Result of the synchronous prelude of `handleCachedRequest`: finished
without reaching `api.get` (cache hit or a thrown rejection), or suspended
at the `await` with the call issued. -/
inductive StartResult where
  | done (r : Except ReqError GData)
  | issued (p : PendingCall)

/-- The synchronous prelude of `handleCachedRequest`, exactly the code that
runs before its only suspension point (`await api.get`): cache check, quota
check, rate check.  Same lines as in `handleCachedRequest`, split at the
`await`. -/
def startFetch (type : ApiCategory) (cacheKey : String) (tNow : Nat) (s : ServerState) :
    StartResult × ServerState :=
  match cacheGetStep type cacheKey tNow s with
  | (some data, s1) => (.done (.ok data), s1)
  | (none, s1) =>
    if s1.requestStats.total ≥ s1.requestStats.limit then
      (.done (.error .limitReached), s1)
    else
      let cmr := s1.rateLimiter.canMakeRequest type tNow
      let s2 := { s1 with rateLimiter := cmr.2 }
      if cmr.1 then (.issued ⟨type, cacheKey⟩, s2)
      else (.done (.error .rateLimited), s2)

/-- The continuation of `handleCachedRequest` after `await api.get`
resolves: stats increments, status check, cache store.  Same lines as in
`handleCachedRequest`, split at the `await`; it reads whatever the shared
state is when the reply arrives. -/
def completeFetch (p : PendingCall) (tResp : Nat) (upstream : UpstreamOutcome)
    (s : ServerState) : Except ReqError GData × ServerState :=
  match upstream with
  | .transportFailure msg => (.error (.transport msg), s)
  | .reply data =>
    let s3 := { s with requestStats := recordCall s.requestStats p.type }
    if data.status ≠ "OK" ∧ data.status ≠ "ZERO_RESULTS" then
      (.error (.googleError data.status), s3)
    else
      let bucket := setEntry (s3.cache.get p.type) p.cacheKey ⟨data, tResp, tResp⟩
      (.ok data,
       { s3 with cache := s3.cache.put p.type (manageCacheSize (CACHE_LIMITS p.type) bucket) })

/-- The shared server state together with the requests currently suspended
at their `await api.get`. -/
structure AsyncState where
  server : ServerState
  pending : List PendingCall
deriving DecidableEq, Repr

/-- One atomic segment of the single-threaded event loop: the synchronous
prelude of a new request, the resumption of a suspended request when its
provider reply (or transport failure) arrives, the per-request session
check, or a manual stats reset.  Interleavings of overlapping requests are
exactly the sequences of these events. -/
inductive AsyncOp where
  | startOp (type : ApiCategory) (cacheKey : String) (tNow : Nat)
  | completeOp (idx : Nat) (tResp : Nat) (upstream : UpstreamOutcome)
  | sessionCheckOp (now : Nat)
  | statsResetOp (now : Nat)

/-- State effect of one event-loop segment.  A `completeOp` picks the
pending request at `idx` (the scheduler's choice of which reply arrives)
and runs its continuation; an out-of-range index is a no-op. -/
def applyAsyncOp (s : AsyncState) : AsyncOp → AsyncState
  | .startOp type key tNow =>
    match startFetch type key tNow s.server with
    | (.issued p, s1) => ⟨s1, s.pending ++ [p]⟩
    | (.done _, s1) => ⟨s1, s.pending⟩
  | .completeOp idx tResp u =>
    match s.pending[idx]? with
    | some p => ⟨(completeFetch p tResp u s.server).2, s.pending.eraseIdx idx⟩
    | none => s
  | .sessionCheckOp now => ⟨checkSessionReset now s.server, s.pending⟩
  | .statsResetOp now => ⟨resetStats now s.server, s.pending⟩

/-- A reachable state of the interleaved semantics: the fold of event-loop
segments over the start state. -/
def runAsyncOps (s : AsyncState) (ops : List AsyncOp) : AsyncState :=
  ops.foldl applyAsyncOp s

/-- The event-loop state at process start. -/
def asyncInitialState (t0 : Nat) : AsyncState :=
  ⟨initialState t0, []⟩

/-- A schedule that drives `total` past `limit = 50`: 49 non-overlapping
geocoding fetches on distinct keys, 100 ms apart, each completing with an
OK reply (total reaches 49); then two fresh fetches — one geocoding, one
places — both pass the quota gate at `total = 49` before either reply
arrives, and both replies then record their calls: `total = 51`. -/
def quotaRaceOps : List AsyncOp :=
  ((List.range 49).map (fun i =>
    [AsyncOp.startOp .geocoding (toString i) ((i + 1) * 100),
     AsyncOp.completeOp 0 ((i + 1) * 100) (.reply ⟨"OK", ""⟩)])).flatten ++
  [AsyncOp.startOp .geocoding "race1" 99900,
   AsyncOp.startOp .places "race2" 99901,
   AsyncOp.completeOp 0 99902 (.reply ⟨"OK", ""⟩),
   AsyncOp.completeOp 0 99903 (.reply ⟨"OK", ""⟩)]

/-- The spec's eviction experiment: a category whose size limit is 10
receives `n` puts with distinct keys "1", "2", ... at strictly increasing
times, each put immediately followed by `manageCacheSize`, exactly as in
`handleCachedRequest`. -/
def evictionScenario (n : Nat) : Bucket :=
  (List.range n).foldl
    (fun b i => manageCacheSize 10 (setEntry b (toString (i + 1)) ⟨⟨"OK", ""⟩, i + 1, i + 1⟩))
    []

/-! ## Supporting lemmas -/

theorem Caches.get_put_same (c : Caches) (t : ApiCategory) (b : Bucket) :
    (c.put t b).get t = b := by
  cases t <;> rfl

theorem canMakeRequest_fst_of_lt (rl : RateLimiter) (type : ApiCategory) (now : Nat)
    (h : now - rl.lastFor type < rl.minInterval) :
    (rl.canMakeRequest type now).1 = false := by
  cases type <;> simp only [RateLimiter.lastFor] at h <;>
    simp only [RateLimiter.canMakeRequest] <;> rw [if_pos h]

theorem canMakeRequest_fst_of_le (rl : RateLimiter) (type : ApiCategory) (now : Nat)
    (h : rl.minInterval ≤ now - rl.lastFor type) :
    (rl.canMakeRequest type now).1 = true := by
  cases type <;> simp only [RateLimiter.lastFor] at h <;>
    simp only [RateLimiter.canMakeRequest] <;> rw [if_neg (Nat.not_lt.mpr h)]

theorem canMakeRequest_snd_lastFor_self (rl : RateLimiter) (type : ApiCategory) (now : Nat) :
    (rl.canMakeRequest type now).2.lastFor type = now := by
  cases type <;> simp [RateLimiter.canMakeRequest, RateLimiter.lastFor] <;> split <;> rfl

theorem canMakeRequest_snd_lastFor_other (rl : RateLimiter) (type other : ApiCategory) (now : Nat)
    (h : other ≠ type) :
    (rl.canMakeRequest type now).2.lastFor other = rl.lastFor other := by
  cases type <;> cases other <;> simp at h <;>
    simp [RateLimiter.canMakeRequest, RateLimiter.lastFor] <;> split <;> rfl

theorem canMakeRequest_snd_minInterval (rl : RateLimiter) (type : ApiCategory) (now : Nat) :
    (rl.canMakeRequest type now).2.minInterval = rl.minInterval := by
  cases type <;> simp [RateLimiter.canMakeRequest] <;> split <;> rfl

/-! ## C1: rate-limiter rejection and its state effect -/

/-- C1 counterexample: with the geocoding last-call timestamp at 1000 and
`minInterval = 100`, consulting the limiter at 1050 (50 ms later) returns
`false`, yet the stored last-call timestamp changes from 1000 to 1050 —
the claim that a rejected check leaves the timestamp unchanged is false. -/
theorem c1_counterexample :
    (RateLimiter.canMakeRequest ⟨1000, 0, 0, 100⟩ .geocoding 1050).1 = false ∧
    (RateLimiter.canMakeRequest ⟨1000, 0, 0, 100⟩ .geocoding 1050).2.lastGeocodeRequest = 1050 ∧
    (1050 : Nat) ≠ 1000 := by
  refine ⟨rfl, rfl, by decide⟩

/-- C1 (amended): when the limiter is consulted less than `minInterval`
after the last call in a category, `canMakeRequest` returns `false`, but it
does mutate state: the stored last-call timestamp of that category is
overwritten with `now` (other categories and `minInterval` unchanged). -/
theorem c1_reject_updates_timestamp (rl : RateLimiter) (type : ApiCategory) (now : Nat)
    (h : now - rl.lastFor type < rl.minInterval) :
    (rl.canMakeRequest type now).1 = false ∧
    (rl.canMakeRequest type now).2.lastFor type = now ∧
    (∀ other : ApiCategory, other ≠ type →
      (rl.canMakeRequest type now).2.lastFor other = rl.lastFor other) ∧
    (rl.canMakeRequest type now).2.minInterval = rl.minInterval :=
  ⟨canMakeRequest_fst_of_lt rl type now h,
   canMakeRequest_snd_lastFor_self rl type now,
   fun other hne => canMakeRequest_snd_lastFor_other rl type other now hne,
   canMakeRequest_snd_minInterval rl type now⟩

/-- C1 witness: the amended statement at the concrete rejected check of
`c1_counterexample`. -/
theorem c1_reject_updates_timestamp_witness :
    ((1050 : Nat) - RateLimiter.lastFor ⟨1000, 0, 0, 100⟩ .geocoding <
      RateLimiter.minInterval ⟨1000, 0, 0, 100⟩) ∧
    ((RateLimiter.canMakeRequest ⟨1000, 0, 0, 100⟩ .geocoding 1050).1 = false ∧
     (RateLimiter.canMakeRequest ⟨1000, 0, 0, 100⟩ .geocoding 1050).2.lastFor .geocoding = 1050 ∧
     (∀ other : ApiCategory, other ≠ .geocoding →
       (RateLimiter.canMakeRequest ⟨1000, 0, 0, 100⟩ .geocoding 1050).2.lastFor other =
         RateLimiter.lastFor ⟨1000, 0, 0, 100⟩ other) ∧
     (RateLimiter.canMakeRequest ⟨1000, 0, 0, 100⟩ .geocoding 1050).2.minInterval =
       RateLimiter.minInterval ⟨1000, 0, 0, 100⟩) :=
  ⟨by decide, c1_reject_updates_timestamp ⟨1000, 0, 0, 100⟩ .geocoding 1050 (by decide)⟩

/-! ## C10: the map midpoint -/

/-- C10: with two (or more) geocoded coordinates the memoized midpoint —
used both as the map center and as the nearby-restaurant search center —
is the coordinate-wise arithmetic mean of the first two (a planar average),
and with fewer than two coordinates it is the fixed Sacramento default
(38.5816, -121.4944). -/
theorem c10_midpoint_spec :
    (∀ c0 c1 : Coord, ∀ rest : List Coord,
      mapMidpoint (c0 :: c1 :: rest) =
        ⟨(c0.lat + c1.lat) / 2, (c0.lng + c1.lng) / 2⟩) ∧
    mapMidpoint [] = ⟨38.5816, -121.4944⟩ ∧
    (∀ c : Coord, mapMidpoint [c] = ⟨38.5816, -121.4944⟩) :=
  ⟨fun _ _ _ => rfl, rfl, fun _ => rfl⟩

/-! ## C7: geocode input validation -/

/-- C7 counterexample: the whitespace-only address `" "` is not rejected:
the `GET /api/geocode` handler only tests `!address`, so `" "` passes
validation and (fresh state, spacing satisfied) issues one external call,
returning the provider payload rather than an InvalidInput error. -/
theorem c7_counterexample :
    (apiGeocode " " 1000 1000 (.reply ⟨"OK", "body"⟩) (initialState 0)).upstreamCalls = 1 ∧
    (apiGeocode " " 1000 1000 (.reply ⟨"OK", "body"⟩) (initialState 0)).result =
      .ok ⟨"OK", "body"⟩ := by
  exact ⟨rfl, rfl⟩

/-- C7 (amended): the geocode handler fails with the InvalidInput rejection
and issues no external call exactly for the empty (or missing) address; a
whitespace-only address such as `" "` passes the validation and proceeds to
the upstream call. -/
theorem c7_empty_address_invalid :
    (∀ (tNow tResp : Nat) (u : UpstreamOutcome) (s : ServerState),
      apiGeocode "" tNow tResp u s =
        ⟨.error (.invalidInput "Address is required"), s, 0⟩) ∧
    (apiGeocode " " 1000 1000 (.reply ⟨"OK", "body"⟩) (initialState 0)).upstreamCalls = 1 :=
  ⟨fun _ _ _ _ => rfl, rfl⟩

theorem lookupEntry_setEntry_self (b : Bucket) (key : String) (e : CacheEntry) :
    lookupEntry (setEntry b key e) key = some e := by
  induction b with
  | nil => simp [setEntry, lookupEntry]
  | cons x rest ih =>
    obtain ⟨k, e0⟩ := x
    by_cases hk : k = key <;> simp [setEntry, lookupEntry, hk, ih]

/-! ## C6: cache expiry semantics -/

/-- C6: the cache lookup step returns the stored entry exactly when it
exists and `now - storedAt < expiry[category]`; a hit rewrites the entry
with `lastAccessedAt := now` but the same `storedAt`, touching neither the
quota stats nor the rate limiter; and an entry stored at `t0` is a hit at
`t0 + expiry - 1` and absent at `t0 + expiry + 1`. -/
theorem c6_cache_expiry (type : ApiCategory) (key : String) (now t0 : Nat)
    (s : ServerState) (e : CacheEntry) :
    (lookupEntry (s.cache.get type) key = none → cacheGetStep type key now s = (none, s)) ∧
    (lookupEntry (s.cache.get type) key = some e →
      CACHE_EXPIRY type ≤ now - e.timestamp → cacheGetStep type key now s = (none, s)) ∧
    (lookupEntry (s.cache.get type) key = some e →
      now - e.timestamp < CACHE_EXPIRY type →
      (cacheGetStep type key now s).1 = some e.data ∧
      lookupEntry ((cacheGetStep type key now s).2.cache.get type) key =
        some ⟨e.data, e.timestamp, now⟩ ∧
      (cacheGetStep type key now s).2.requestStats = s.requestStats ∧
      (cacheGetStep type key now s).2.rateLimiter = s.rateLimiter) ∧
    (lookupEntry (s.cache.get type) key = some e → e.timestamp = t0 →
      (cacheGetStep type key (t0 + CACHE_EXPIRY type - 1) s).1 = some e.data ∧
      (cacheGetStep type key (t0 + CACHE_EXPIRY type + 1) s).1 = none) := by
  have hE : 1 ≤ CACHE_EXPIRY type := by cases type <;> decide
  have hit : ∀ n : Nat, lookupEntry (s.cache.get type) key = some e →
      n - e.timestamp < CACHE_EXPIRY type →
      cacheGetStep type key n s =
        (some e.data,
         { s with cache :=
            s.cache.put type (setEntry (s.cache.get type) key ⟨e.data, e.timestamp, n⟩) }) := by
    intro n h hf
    simp only [cacheGetStep, h, if_pos hf]
  have stale : ∀ n : Nat, lookupEntry (s.cache.get type) key = some e →
      CACHE_EXPIRY type ≤ n - e.timestamp → cacheGetStep type key n s = (none, s) := by
    intro n h hf
    simp only [cacheGetStep, h, if_neg (Nat.not_lt.mpr hf)]
  refine ⟨?_, stale now, ?_, ?_⟩
  · intro h
    simp only [cacheGetStep, h]
  · intro h hf
    rw [hit now h hf]
    exact ⟨rfl, by rw [Caches.get_put_same, lookupEntry_setEntry_self], rfl, rfl⟩
  · intro h ht0
    constructor
    · rw [hit (t0 + CACHE_EXPIRY type - 1) h (by omega)]
    · rw [stale (t0 + CACHE_EXPIRY type + 1) h (by omega)]

/-- C6 witness: the expiry semantics at a concrete one-entry geocoding
cache (entry stored at 100, expiry 30 minutes, consulted at 200). -/
theorem c6_cache_expiry_witness :
    (lookupEntry ((⟨⟨[("k", ⟨⟨"OK", "b"⟩, 100, 100⟩)], [], []⟩, ⟨0, 0, 0, 0, 50, 0⟩,
        ⟨0, 0, 0, 100⟩⟩ : ServerState).cache.get .geocoding) "k" =
      some ⟨⟨"OK", "b"⟩, 100, 100⟩) ∧
    ((200 : Nat) - 100 < CACHE_EXPIRY .geocoding) ∧
    ((cacheGetStep .geocoding "k" 200
        ⟨⟨[("k", ⟨⟨"OK", "b"⟩, 100, 100⟩)], [], []⟩, ⟨0, 0, 0, 0, 50, 0⟩, ⟨0, 0, 0, 100⟩⟩).1 =
      some ⟨"OK", "b"⟩ ∧
     lookupEntry ((cacheGetStep .geocoding "k" 200
        ⟨⟨[("k", ⟨⟨"OK", "b"⟩, 100, 100⟩)], [], []⟩, ⟨0, 0, 0, 0, 50, 0⟩,
          ⟨0, 0, 0, 100⟩⟩).2.cache.get .geocoding) "k" = some ⟨⟨"OK", "b"⟩, 100, 200⟩ ∧
     (cacheGetStep .geocoding "k" 200
        ⟨⟨[("k", ⟨⟨"OK", "b"⟩, 100, 100⟩)], [], []⟩, ⟨0, 0, 0, 0, 50, 0⟩,
          ⟨0, 0, 0, 100⟩⟩).2.requestStats = ⟨0, 0, 0, 0, 50, 0⟩ ∧
     (cacheGetStep .geocoding "k" 200
        ⟨⟨[("k", ⟨⟨"OK", "b"⟩, 100, 100⟩)], [], []⟩, ⟨0, 0, 0, 0, 50, 0⟩,
          ⟨0, 0, 0, 100⟩⟩).2.rateLimiter = ⟨0, 0, 0, 100⟩) :=
  ⟨rfl, by decide,
   (c6_cache_expiry .geocoding "k" 200 100
      ⟨⟨[("k", ⟨⟨"OK", "b"⟩, 100, 100⟩)], [], []⟩, ⟨0, 0, 0, 0, 50, 0⟩, ⟨0, 0, 0, 100⟩⟩
      ⟨⟨"OK", "b"⟩, 100, 100⟩).2.2.1 rfl (by decide)⟩

/-! ## C9: cache hits are free -/

/-- C9: a fetch whose key has a fresh cache entry returns that entry's
payload with no external call, leaving the quota stats and the rate-limiter
timestamps untouched; since no quota hypothesis is needed, the hit succeeds
even when `total` has already reached `limit`. -/
theorem c9_cache_hit_frame (type : ApiCategory) (key : String) (tNow tResp : Nat)
    (u : UpstreamOutcome) (s : ServerState) (e : CacheEntry)
    (hlook : lookupEntry (s.cache.get type) key = some e)
    (hfresh : tNow - e.timestamp < CACHE_EXPIRY type) :
    (handleCachedRequest type key tNow tResp u s).result = .ok e.data ∧
    (handleCachedRequest type key tNow tResp u s).upstreamCalls = 0 ∧
    (handleCachedRequest type key tNow tResp u s).state.requestStats = s.requestStats ∧
    (handleCachedRequest type key tNow tResp u s).state.rateLimiter = s.rateLimiter := by
  simp only [handleCachedRequest, cacheGetStep, hlook, if_pos hfresh]
  simp

/-- C9 witness: a hit on a saturated quota (`total = limit = 50`) still
returns the cached payload, issues no call, and changes no counter. -/
theorem c9_cache_hit_frame_witness :
    (lookupEntry ((⟨⟨[("k", ⟨⟨"OK", "b"⟩, 100, 100⟩)], [], []⟩, ⟨50, 50, 0, 0, 50, 0⟩,
        ⟨0, 0, 0, 100⟩⟩ : ServerState).cache.get .geocoding) "k" =
      some ⟨⟨"OK", "b"⟩, 100, 100⟩) ∧
    ((200 : Nat) - 100 < CACHE_EXPIRY .geocoding) ∧
    ((handleCachedRequest .geocoding "k" 200 200 (.reply ⟨"OK", "x"⟩)
        ⟨⟨[("k", ⟨⟨"OK", "b"⟩, 100, 100⟩)], [], []⟩, ⟨50, 50, 0, 0, 50, 0⟩,
          ⟨0, 0, 0, 100⟩⟩).result = .ok ⟨"OK", "b"⟩ ∧
     (handleCachedRequest .geocoding "k" 200 200 (.reply ⟨"OK", "x"⟩)
        ⟨⟨[("k", ⟨⟨"OK", "b"⟩, 100, 100⟩)], [], []⟩, ⟨50, 50, 0, 0, 50, 0⟩,
          ⟨0, 0, 0, 100⟩⟩).upstreamCalls = 0 ∧
     (handleCachedRequest .geocoding "k" 200 200 (.reply ⟨"OK", "x"⟩)
        ⟨⟨[("k", ⟨⟨"OK", "b"⟩, 100, 100⟩)], [], []⟩, ⟨50, 50, 0, 0, 50, 0⟩,
          ⟨0, 0, 0, 100⟩⟩).state.requestStats = ⟨50, 50, 0, 0, 50, 0⟩ ∧
     (handleCachedRequest .geocoding "k" 200 200 (.reply ⟨"OK", "x"⟩)
        ⟨⟨[("k", ⟨⟨"OK", "b"⟩, 100, 100⟩)], [], []⟩, ⟨50, 50, 0, 0, 50, 0⟩,
          ⟨0, 0, 0, 100⟩⟩).state.rateLimiter = ⟨0, 0, 0, 100⟩) :=
  ⟨rfl, by decide,
   c9_cache_hit_frame .geocoding "k" 200 200 (.reply ⟨"OK", "x"⟩)
     ⟨⟨[("k", ⟨⟨"OK", "b"⟩, 100, 100⟩)], [], []⟩, ⟨50, 50, 0, 0, 50, 0⟩, ⟨0, 0, 0, 100⟩⟩
     ⟨⟨"OK", "b"⟩, 100, 100⟩ rfl (by decide)⟩

theorem cacheGetStep_of_fst_none (type : ApiCategory) (key : String) (now : Nat)
    (s : ServerState) (h : (cacheGetStep type key now s).1 = none) :
    cacheGetStep type key now s = (none, s) := by
  unfold cacheGetStep at h ⊢
  cases hl : lookupEntry (s.cache.get type) key with
  | none => rfl
  | some e =>
    rw [hl] at h
    dsimp only at h ⊢
    by_cases hc : now - e.timestamp < CACHE_EXPIRY type
    · rw [if_pos hc] at h
      simp at h
    · rw [if_neg hc]

theorem cacheGetStep_snd_stats (type : ApiCategory) (key : String) (now : Nat)
    (s : ServerState) :
    (cacheGetStep type key now s).2.requestStats = s.requestStats ∧
    (cacheGetStep type key now s).2.rateLimiter = s.rateLimiter := by
  unfold cacheGetStep
  cases hl : lookupEntry (s.cache.get type) key with
  | none => exact ⟨rfl, rfl⟩
  | some e =>
    dsimp only
    split
    · exact ⟨rfl, rfl⟩
    · exact ⟨rfl, rfl⟩

theorem recordCall_total (st : RequestStats) (type : ApiCategory) :
    (recordCall st type).total = st.total + 1 := by
  cases type <;> rfl

theorem recordCall_limit (st : RequestStats) (type : ApiCategory) :
    (recordCall st type).limit = st.limit := by
  cases type <;> rfl

theorem recordCall_catCount_self (st : RequestStats) (type : ApiCategory) :
    (recordCall st type).catCount type = st.catCount type + 1 := by
  cases type <;> rfl

theorem handleCachedRequest_quota_reject (type : ApiCategory) (key : String)
    (tNow tResp : Nat) (u : UpstreamOutcome) (s : ServerState)
    (hmiss : (cacheGetStep type key tNow s).1 = none)
    (hquota : s.requestStats.limit ≤ s.requestStats.total) :
    handleCachedRequest type key tNow tResp u s = ⟨.error .limitReached, s, 0⟩ := by
  unfold handleCachedRequest
  rw [cacheGetStep_of_fst_none type key tNow s hmiss]
  dsimp only
  rw [if_pos hquota]

theorem handleCachedRequest_rate_reject (type : ApiCategory) (key : String)
    (tNow tResp : Nat) (u : UpstreamOutcome) (s : ServerState)
    (hmiss : (cacheGetStep type key tNow s).1 = none)
    (hquota : s.requestStats.total < s.requestStats.limit)
    (hrate : tNow - s.rateLimiter.lastFor type < s.rateLimiter.minInterval) :
    handleCachedRequest type key tNow tResp u s =
      ⟨.error .rateLimited,
       { s with rateLimiter := (s.rateLimiter.canMakeRequest type tNow).2 }, 0⟩ := by
  unfold handleCachedRequest
  rw [cacheGetStep_of_fst_none type key tNow s hmiss]
  dsimp only
  rw [if_neg (Nat.not_le.mpr hquota), canMakeRequest_fst_of_lt s.rateLimiter type tNow hrate]
  rfl

theorem handleCachedRequest_miss_transport (type : ApiCategory) (key : String)
    (tNow tResp : Nat) (msg : String) (s : ServerState)
    (hmiss : (cacheGetStep type key tNow s).1 = none)
    (hquota : s.requestStats.total < s.requestStats.limit)
    (hrate : s.rateLimiter.minInterval ≤ tNow - s.rateLimiter.lastFor type) :
    handleCachedRequest type key tNow tResp (.transportFailure msg) s =
      ⟨.error (.transport msg),
       { s with rateLimiter := (s.rateLimiter.canMakeRequest type tNow).2 }, 1⟩ := by
  unfold handleCachedRequest
  rw [cacheGetStep_of_fst_none type key tNow s hmiss]
  dsimp only
  rw [if_neg (Nat.not_le.mpr hquota), canMakeRequest_fst_of_le s.rateLimiter type tNow hrate]
  rfl

theorem handleCachedRequest_miss_reply_error (type : ApiCategory) (key : String)
    (tNow tResp : Nat) (d : GData) (s : ServerState)
    (hmiss : (cacheGetStep type key tNow s).1 = none)
    (hquota : s.requestStats.total < s.requestStats.limit)
    (hrate : s.rateLimiter.minInterval ≤ tNow - s.rateLimiter.lastFor type)
    (hstatus : d.status ≠ "OK" ∧ d.status ≠ "ZERO_RESULTS") :
    handleCachedRequest type key tNow tResp (.reply d) s =
      ⟨.error (.googleError d.status),
       ⟨s.cache, recordCall s.requestStats type,
        (s.rateLimiter.canMakeRequest type tNow).2⟩, 1⟩ := by
  unfold handleCachedRequest
  rw [cacheGetStep_of_fst_none type key tNow s hmiss]
  dsimp only
  rw [if_neg (Nat.not_le.mpr hquota), canMakeRequest_fst_of_le s.rateLimiter type tNow hrate]
  simp only [if_pos hstatus]
  rfl

theorem handleCachedRequest_miss_reply_ok (type : ApiCategory) (key : String)
    (tNow tResp : Nat) (d : GData) (s : ServerState)
    (hmiss : (cacheGetStep type key tNow s).1 = none)
    (hquota : s.requestStats.total < s.requestStats.limit)
    (hrate : s.rateLimiter.minInterval ≤ tNow - s.rateLimiter.lastFor type)
    (hstatus : ¬(d.status ≠ "OK" ∧ d.status ≠ "ZERO_RESULTS")) :
    handleCachedRequest type key tNow tResp (.reply d) s =
      ⟨.ok d,
       ⟨s.cache.put type (manageCacheSize (CACHE_LIMITS type)
          (setEntry (s.cache.get type) key ⟨d, tResp, tResp⟩)),
        recordCall s.requestStats type,
        (s.rateLimiter.canMakeRequest type tNow).2⟩, 1⟩ := by
  unfold handleCachedRequest
  rw [cacheGetStep_of_fst_none type key tNow s hmiss]
  dsimp only
  rw [if_neg (Nat.not_le.mpr hquota), canMakeRequest_fst_of_le s.rateLimiter type tNow hrate]
  simp only [if_neg hstatus]
  rfl

/-! ## C2: what the quota counts -/

/-- C2 counterexample: from a fresh state, a fetch whose provider reply has
the error status REQUEST_DENIED fails with the Google-error rejection, yet
`requestStats.total` has been incremented from 0 to 1 — the counters are
bumped before the status check, so an error status is still recorded
against the quota. -/
theorem c2_counterexample :
    (handleCachedRequest .geocoding "addr" 1000 1000
        (.reply ⟨"REQUEST_DENIED", ""⟩) (initialState 0)).result =
      .error (.googleError "REQUEST_DENIED") ∧
    (handleCachedRequest .geocoding "addr" 1000 1000
        (.reply ⟨"REQUEST_DENIED", ""⟩) (initialState 0)).state.requestStats.total = 1 ∧
    (initialState 0).requestStats.total = 0 :=
  ⟨rfl, rfl, rfl⟩

/-- C2 (amended): for every fetch that reaches the external call, the quota
counters (`total` and the per-category counter) are incremented whenever
the provider replies at all, regardless of status; on an error status the
fetch still fails with the provider error and nothing is stored in the
cache, and only a transport failure leaves the counters untouched (and the
cache unchanged). -/
theorem c2_quota_recording (type : ApiCategory) (key : String) (tNow tResp : Nat)
    (d : GData) (msg : String) (s : ServerState)
    (hmiss : (cacheGetStep type key tNow s).1 = none)
    (hquota : s.requestStats.total < s.requestStats.limit)
    (hrate : s.rateLimiter.minInterval ≤ tNow - s.rateLimiter.lastFor type) :
    ((handleCachedRequest type key tNow tResp (.reply d) s).upstreamCalls = 1 ∧
     (handleCachedRequest type key tNow tResp (.reply d) s).state.requestStats.total =
       s.requestStats.total + 1 ∧
     (handleCachedRequest type key tNow tResp (.reply d) s).state.requestStats.catCount type =
       s.requestStats.catCount type + 1) ∧
    (d.status ≠ "OK" ∧ d.status ≠ "ZERO_RESULTS" →
      (handleCachedRequest type key tNow tResp (.reply d) s).result =
        .error (.googleError d.status) ∧
      (handleCachedRequest type key tNow tResp (.reply d) s).state.cache = s.cache) ∧
    (d.status = "OK" ∨ d.status = "ZERO_RESULTS" →
      (handleCachedRequest type key tNow tResp (.reply d) s).result = .ok d) ∧
    ((handleCachedRequest type key tNow tResp (.transportFailure msg) s).result =
       .error (.transport msg) ∧
     (handleCachedRequest type key tNow tResp (.transportFailure msg) s).state.requestStats =
       s.requestStats ∧
     (handleCachedRequest type key tNow tResp (.transportFailure msg) s).state.cache =
       s.cache ∧
     (handleCachedRequest type key tNow tResp (.transportFailure msg) s).upstreamCalls = 1) := by
  have htp := handleCachedRequest_miss_transport type key tNow tResp msg s hmiss hquota hrate
  by_cases hstatus : d.status ≠ "OK" ∧ d.status ≠ "ZERO_RESULTS"
  · have herr := handleCachedRequest_miss_reply_error type key tNow tResp d s hmiss hquota hrate hstatus
    refine ⟨?_, ?_, ?_, ?_⟩
    · rw [herr]
      exact ⟨rfl, recordCall_total s.requestStats type, recordCall_catCount_self s.requestStats type⟩
    · intro _
      rw [herr]
      exact ⟨rfl, rfl⟩
    · intro hok
      rcases hok with hok | hok
      · exact absurd hok hstatus.1
      · exact absurd hok hstatus.2
    · rw [htp]
      exact ⟨rfl, rfl, rfl, rfl⟩
  · have hok := handleCachedRequest_miss_reply_ok type key tNow tResp d s hmiss hquota hrate hstatus
    refine ⟨?_, ?_, ?_, ?_⟩
    · rw [hok]
      exact ⟨rfl, recordCall_total s.requestStats type, recordCall_catCount_self s.requestStats type⟩
    · intro hcontra
      exact absurd hcontra hstatus
    · intro _
      rw [hok]
    · rw [htp]
      exact ⟨rfl, rfl, rfl, rfl⟩

/-- C2 witness: the amended statement at the concrete fresh-state fetch of
`c2_counterexample`. -/
theorem c2_quota_recording_witness :
    ((cacheGetStep .geocoding "addr" 1000 (initialState 0)).1 = none ∧
     (initialState 0).requestStats.total < (initialState 0).requestStats.limit ∧
     (initialState 0).rateLimiter.minInterval ≤
       1000 - (initialState 0).rateLimiter.lastFor .geocoding) ∧
    ((handleCachedRequest .geocoding "addr" 1000 1000
        (.reply ⟨"REQUEST_DENIED", ""⟩) (initialState 0)).upstreamCalls = 1 ∧
     (handleCachedRequest .geocoding "addr" 1000 1000
        (.reply ⟨"REQUEST_DENIED", ""⟩) (initialState 0)).state.requestStats.total =
       (initialState 0).requestStats.total + 1 ∧
     (handleCachedRequest .geocoding "addr" 1000 1000
        (.reply ⟨"REQUEST_DENIED", ""⟩)
        (initialState 0)).state.requestStats.catCount .geocoding =
       (initialState 0).requestStats.catCount .geocoding + 1) :=
  ⟨⟨rfl, by decide, by decide⟩,
   (c2_quota_recording .geocoding "addr" 1000 1000 ⟨"REQUEST_DENIED", ""⟩ "m"
      (initialState 0) rfl (by decide) (by decide)).1⟩

/-! ## C4: the session quota is a hard ceiling -/

theorem handleCachedRequest_stats_cases (type : ApiCategory) (key : String)
    (tNow tResp : Nat) (u : UpstreamOutcome) (s : ServerState) :
    (handleCachedRequest type key tNow tResp u s).state.requestStats = s.requestStats ∨
    (s.requestStats.total < s.requestStats.limit ∧
     (handleCachedRequest type key tNow tResp u s).state.requestStats =
       recordCall s.requestStats type) := by
  rcases hc : cacheGetStep type key tNow s with ⟨r, s1⟩
  have hs1 : s1.requestStats = s.requestStats := by
    have h := (cacheGetStep_snd_stats type key tNow s).1
    rw [hc] at h
    exact h
  cases r with
  | some d =>
    left
    have heq : handleCachedRequest type key tNow tResp u s = ⟨.ok d, s1, 0⟩ := by
      unfold handleCachedRequest
      rw [hc]
    rw [heq]
    exact hs1
  | none =>
    have hmiss : (cacheGetStep type key tNow s).1 = none := by rw [hc]
    by_cases hq : s.requestStats.limit ≤ s.requestStats.total
    · left
      rw [handleCachedRequest_quota_reject type key tNow tResp u s hmiss hq]
    · have hq' : s.requestStats.total < s.requestStats.limit := Nat.not_le.mp hq
      by_cases hr : tNow - s.rateLimiter.lastFor type < s.rateLimiter.minInterval
      · left
        rw [handleCachedRequest_rate_reject type key tNow tResp u s hmiss hq' hr]
      · have hrate : s.rateLimiter.minInterval ≤ tNow - s.rateLimiter.lastFor type :=
          Nat.not_lt.mp hr
        cases u with
        | transportFailure msg =>
          left
          rw [handleCachedRequest_miss_transport type key tNow tResp msg s hmiss hq' hrate]
        | reply d =>
          right
          refine ⟨hq', ?_⟩
          by_cases hstatus : d.status ≠ "OK" ∧ d.status ≠ "ZERO_RESULTS"
          · rw [handleCachedRequest_miss_reply_error type key tNow tResp d s hmiss hq' hrate hstatus]
          · rw [handleCachedRequest_miss_reply_ok type key tNow tResp d s hmiss hq' hrate hstatus]

theorem applyOp_preserves_quota (s : ServerState) (op : ServerOp)
    (h : s.requestStats.total ≤ s.requestStats.limit) :
    (applyOp s op).requestStats.total ≤ (applyOp s op).requestStats.limit := by
  cases op with
  | fetchOp type key tNow tResp u =>
    show (handleCachedRequest type key tNow tResp u s).state.requestStats.total ≤
      (handleCachedRequest type key tNow tResp u s).state.requestStats.limit
    rcases handleCachedRequest_stats_cases type key tNow tResp u s with hsame | ⟨hlt, heq⟩
    · rw [hsame]
      exact h
    · rw [heq, recordCall_total, recordCall_limit]
      omega
  | sessionCheck now =>
    show (checkSessionReset now s).requestStats.total ≤
      (checkSessionReset now s).requestStats.limit
    unfold checkSessionReset
    split
    · exact Nat.zero_le _
    · exact h
  | statsResetOp now =>
    exact Nat.zero_le _

theorem runOps_quota (ops : List ServerOp) : ∀ s : ServerState,
    s.requestStats.total ≤ s.requestStats.limit →
    (runOps s ops).requestStats.total ≤ (runOps s ops).requestStats.limit := by
  induction ops with
  | nil => intro s h; exact h
  | cons op rest ih =>
    intro s h
    exact ih (applyOp s op) (applyOp_preserves_quota s op h)

theorem startFetch_quota_reject (type : ApiCategory) (key : String) (tNow : Nat)
    (s : ServerState) (hmiss : (cacheGetStep type key tNow s).1 = none)
    (hquota : s.requestStats.limit ≤ s.requestStats.total) :
    startFetch type key tNow s = (.done (.error .limitReached), s) := by
  unfold startFetch
  rw [cacheGetStep_of_fst_none type key tNow s hmiss]
  dsimp only
  rw [if_pos hquota]

/-- The two-phase split is faithful: running the synchronous prelude and,
when a call was issued, the post-reply continuation on the prelude's state
is exactly `handleCachedRequest` — the interleaved model agrees with the
atomic one whenever nothing runs between the two phases. -/
theorem handleCachedRequest_eq_start_complete (type : ApiCategory) (key : String)
    (tNow tResp : Nat) (u : UpstreamOutcome) (s : ServerState) :
    handleCachedRequest type key tNow tResp u s =
      match startFetch type key tNow s with
      | (.done r, s1) => ⟨r, s1, 0⟩
      | (.issued p, s1) =>
        ⟨(completeFetch p tResp u s1).1, (completeFetch p tResp u s1).2, 1⟩ := by
  unfold handleCachedRequest startFetch completeFetch
  rcases hc : cacheGetStep type key tNow s with ⟨r, s1⟩
  cases r with
  | some d => rfl
  | none =>
    dsimp only
    by_cases hq : s1.requestStats.total ≥ s1.requestStats.limit
    · rw [if_pos hq, if_pos hq]
    · rw [if_neg hq, if_neg hq]
      cases hb : (s1.rateLimiter.canMakeRequest type tNow).1
      · rfl
      · cases u with
        | transportFailure msg => rfl
        | reply d =>
          dsimp only
          by_cases hs : d.status ≠ "OK" ∧ d.status ≠ "ZERO_RESULTS"
          · simp only [if_pos hs]
            simp
          · simp only [if_neg hs]
            simp

set_option maxRecDepth 20000 in
/-- C4 counterexample: the quota is not a hard ceiling under interleaving.
After 49 completed fetches (`total = 49`), a geocoding fetch and a places
fetch both run their synchronous preludes — each passes the quota gate at
`total = 49 < 50` — before either provider reply arrives; both replies then
record their calls, reaching the state `total = 51 > limit = 50`.  The
schedule is explicit in `quotaRaceOps`, starting from the process start
state. -/
theorem c4_counterexample :
    (runAsyncOps (asyncInitialState 0) quotaRaceOps).server.requestStats.total = 51 ∧
    (runAsyncOps (asyncInitialState 0) quotaRaceOps).server.requestStats.limit = 50 ∧
    ¬((runAsyncOps (asyncInitialState 0) quotaRaceOps).server.requestStats.total ≤
      (runAsyncOps (asyncInitialState 0) quotaRaceOps).server.requestStats.limit) :=
  ⟨rfl, rfl, by decide⟩

set_option maxRecDepth 20000 in
/-- C4 (amended): the session quota is a gate, not a hard ceiling.  Every
fetch that misses the cache while `total ≥ limit` fails with the
limit-reached error before issuing the external call and without changing
any state — in the atomic model and in the interleaved model's prelude
alike.  When fetches do not overlap (each runs to completion before the
next begins), `total` never exceeds `limit` in any reachable state.  But
because the counters are incremented only after the awaited provider
reply, overlapping fetches can each pass the gate before any of them
records its call: the explicit schedule `quotaRaceOps` reaches
`total = 51` with `limit = 50`. -/
theorem c4_quota_gate :
    (∀ (type : ApiCategory) (key : String) (tNow tResp : Nat) (u : UpstreamOutcome)
       (s : ServerState),
      (cacheGetStep type key tNow s).1 = none →
      s.requestStats.limit ≤ s.requestStats.total →
      handleCachedRequest type key tNow tResp u s = ⟨.error .limitReached, s, 0⟩ ∧
      startFetch type key tNow s = (.done (.error .limitReached), s)) ∧
    (∀ (t0 : Nat) (ops : List ServerOp),
      (runOps (initialState t0) ops).requestStats.total ≤
        (runOps (initialState t0) ops).requestStats.limit) ∧
    ((runAsyncOps (asyncInitialState 0) quotaRaceOps).server.requestStats.total = 51 ∧
     (runAsyncOps (asyncInitialState 0) quotaRaceOps).server.requestStats.limit = 50) :=
  ⟨fun type key tNow tResp u s hmiss hq =>
    ⟨handleCachedRequest_quota_reject type key tNow tResp u s hmiss hq,
     startFetch_quota_reject type key tNow s hmiss hq⟩,
   fun t0 ops => runOps_quota ops (initialState t0) (Nat.zero_le _),
   rfl, rfl⟩

/-- C4 witness: a saturated state (`total = limit = 50`, empty cache)
rejects a fresh geocoding fetch with the limit error and an unchanged
state in both models, and the non-overlapping bound holds after the empty
run. -/
theorem c4_quota_gate_witness :
    ((cacheGetStep .geocoding "k" 1000
        ⟨⟨[], [], []⟩, ⟨50, 50, 0, 0, 50, 0⟩, ⟨0, 0, 0, 100⟩⟩).1 = none ∧
     (50 : Nat) ≤ 50) ∧
    (handleCachedRequest .geocoding "k" 1000 1000 (.reply ⟨"OK", ""⟩)
        ⟨⟨[], [], []⟩, ⟨50, 50, 0, 0, 50, 0⟩, ⟨0, 0, 0, 100⟩⟩ =
      ⟨.error .limitReached, ⟨⟨[], [], []⟩, ⟨50, 50, 0, 0, 50, 0⟩, ⟨0, 0, 0, 100⟩⟩, 0⟩ ∧
     startFetch .geocoding "k" 1000
        ⟨⟨[], [], []⟩, ⟨50, 50, 0, 0, 50, 0⟩, ⟨0, 0, 0, 100⟩⟩ =
      (.done (.error .limitReached),
       ⟨⟨[], [], []⟩, ⟨50, 50, 0, 0, 50, 0⟩, ⟨0, 0, 0, 100⟩⟩)) ∧
    (runOps (initialState 0) []).requestStats.total ≤
      (runOps (initialState 0) []).requestStats.limit :=
  ⟨⟨rfl, by decide⟩,
   c4_quota_gate.1 .geocoding "k" 1000 1000 (.reply ⟨"OK", ""⟩)
     ⟨⟨[], [], []⟩, ⟨50, 50, 0, 0, 50, 0⟩, ⟨0, 0, 0, 100⟩⟩ rfl (by decide),
   c4_quota_gate.2.1 0 []⟩

/-! ## Sorting and eviction lemmas -/

theorem insertByTimestamp_perm (e : String × CacheEntry) (l : Bucket) :
    List.Perm (insertByTimestamp e l) (e :: l) := by
  induction l with
  | nil => exact List.Perm.refl _
  | cons x xs ih =>
    unfold insertByTimestamp
    split
    · exact List.Perm.refl _
    · exact (ih.cons x).trans (List.Perm.swap e x xs)

theorem sortByTimestamp_perm (l : Bucket) : List.Perm (sortByTimestamp l) l := by
  induction l with
  | nil => exact List.Perm.refl _
  | cons x xs ih =>
    exact (insertByTimestamp_perm x (sortByTimestamp xs)).trans (ih.cons x)

theorem sortByTimestamp_length (l : Bucket) : (sortByTimestamp l).length = l.length :=
  (sortByTimestamp_perm l).length_eq

theorem mem_insertByTimestamp (e y : String × CacheEntry) (l : Bucket)
    (h : y ∈ insertByTimestamp e l) : y = e ∨ y ∈ l := by
  have := (insertByTimestamp_perm e l).mem_iff.mp h
  simpa using this

theorem insertByTimestamp_pairwise (e : String × CacheEntry) (l : Bucket)
    (h : List.Pairwise (fun a b => a.2.timestamp ≤ b.2.timestamp) l) :
    List.Pairwise (fun a b => a.2.timestamp ≤ b.2.timestamp) (insertByTimestamp e l) := by
  induction l with
  | nil => simp [insertByTimestamp]
  | cons x xs ih =>
    unfold insertByTimestamp
    rcases List.pairwise_cons.mp h with ⟨hx, hxs⟩
    split
    case isTrue hle =>
      refine List.pairwise_cons.mpr ⟨?_, h⟩
      intro y hy
      rcases List.mem_cons.mp hy with rfl | hy
      · exact hle
      · exact Nat.le_trans hle (hx y hy)
    case isFalse hgt =>
      refine List.pairwise_cons.mpr ⟨?_, ih hxs⟩
      intro y hy
      rcases mem_insertByTimestamp e y xs hy with rfl | hy
      · exact Nat.le_of_lt (Nat.lt_of_not_le (fun hc => hgt hc))
      · exact hx y hy

theorem sortByTimestamp_pairwise (l : Bucket) :
    List.Pairwise (fun a b => a.2.timestamp ≤ b.2.timestamp) (sortByTimestamp l) := by
  induction l with
  | nil => simp [sortByTimestamp]
  | cons x xs ih => exact insertByTimestamp_pairwise x (sortByTimestamp xs) ih

theorem insertByTimestamp_append_newest (x e : String × CacheEntry) (l : Bucket)
    (h : x.2.timestamp ≤ e.2.timestamp) :
    insertByTimestamp x (l ++ [e]) = insertByTimestamp x l ++ [e] := by
  induction l with
  | nil => simp [insertByTimestamp, h]
  | cons y ys ih =>
    simp only [List.cons_append, insertByTimestamp]
    by_cases hc : x.2.timestamp ≤ y.2.timestamp
    · rw [if_pos hc, if_pos hc]
      rfl
    · rw [if_neg hc, if_neg hc]
      show y :: insertByTimestamp x (ys ++ [e]) = y :: insertByTimestamp x ys ++ [e]
      rw [ih]
      rfl

theorem sortByTimestamp_append_newest (l : Bucket) (e : String × CacheEntry)
    (h : ∀ x ∈ l, x.2.timestamp ≤ e.2.timestamp) :
    sortByTimestamp (l ++ [e]) = sortByTimestamp l ++ [e] := by
  induction l with
  | nil => simp [sortByTimestamp, insertByTimestamp]
  | cons x xs ih =>
    have hx : x.2.timestamp ≤ e.2.timestamp := h x (by simp)
    have hxs : ∀ y ∈ xs, y.2.timestamp ≤ e.2.timestamp := fun y hy => h y (by simp [hy])
    show insertByTimestamp x (sortByTimestamp (xs ++ [e])) = _
    rw [ih hxs, insertByTimestamp_append_newest x e (sortByTimestamp xs) hx]
    rfl

theorem lookupEntry_none_forall (b : Bucket) (key : String)
    (h : lookupEntry b key = none) : ∀ p ∈ b, p.1 ≠ key := by
  induction b with
  | nil => intro p hp; cases hp
  | cons x rest ih =>
    intro p hp
    unfold lookupEntry at h
    rcases List.mem_cons.mp hp with rfl | hp
    · intro hk
      rw [hk] at h
      simp at h
    · by_cases hx : x.1 = key
      · rw [if_pos hx] at h
        cases h
      · rw [if_neg hx] at h
        exact ih h p hp

theorem setEntry_of_none (b : Bucket) (key : String) (e : CacheEntry)
    (h : lookupEntry b key = none) : setEntry b key e = b ++ [(key, e)] := by
  induction b with
  | nil => rfl
  | cons x rest ih =>
    unfold lookupEntry at h
    unfold setEntry
    by_cases hx : x.1 = key
    · rw [if_pos hx] at h
      cases h
    · rw [if_neg hx] at h
      show (if x.1 = key then _ else _) = _
      rw [if_neg hx, ih h]
      rfl

theorem lookupEntry_append_right (b b2 : Bucket) (key : String)
    (h : lookupEntry b key = none) :
    lookupEntry (b ++ b2) key = lookupEntry b2 key := by
  induction b with
  | nil => rfl
  | cons x rest ih =>
    unfold lookupEntry at h
    by_cases hx : x.1 = key
    · rw [if_pos hx] at h
      cases h
    · rw [if_neg hx] at h
      show (if x.1 = key then _ else _) = _
      rw [if_neg hx]
      exact ih h

theorem lookupEntry_deleteKey_ne (b : Bucket) (k0 key : String) (h : k0 ≠ key) :
    lookupEntry (deleteKey b k0) key = lookupEntry b key := by
  induction b with
  | nil => rfl
  | cons x rest ih =>
    unfold deleteKey
    by_cases hx : x.1 = k0
    · rw [if_pos hx]
      show _ = (if x.1 = key then _ else _)
      rw [if_neg (by rw [hx]; exact h)]
    · rw [if_neg hx]
      show (if x.1 = key then _ else _) = (if x.1 = key then _ else _)
      by_cases hk : x.1 = key
      · rw [if_pos hk, if_pos hk]
      · rw [if_neg hk, if_neg hk]
        exact ih

theorem foldl_deleteKey_lookup (dl : List (String × CacheEntry)) :
    ∀ b : Bucket, ∀ key : String, (∀ x ∈ dl, x.1 ≠ key) →
    lookupEntry (dl.foldl (fun m e => deleteKey m e.1) b) key = lookupEntry b key := by
  induction dl with
  | nil => intro b key _; rfl
  | cons x rest ih =>
    intro b key h
    have hx : x.1 ≠ key := h x (by simp)
    have hrest : ∀ y ∈ rest, y.1 ≠ key := fun y hy => h y (by simp [hy])
    show lookupEntry (rest.foldl _ (deleteKey b x.1)) key = _
    rw [ih (deleteKey b x.1) key hrest, lookupEntry_deleteKey_ne b x.1 key hx]

theorem manageCacheSize_eq_of_gt (limit : Nat) (m : Bucket) (h : m.length > limit) :
    manageCacheSize limit m =
      ((sortByTimestamp m).take ((sortByTimestamp m).length * 2 / 10)).foldl
        (fun acc e => deleteKey acc e.1) m := by
  unfold manageCacheSize
  rw [if_pos h]

theorem manageCacheSize_eq_of_le (limit : Nat) (m : Bucket) (h : ¬m.length > limit) :
    manageCacheSize limit m = m := by
  unfold manageCacheSize
  rw [if_neg h]

theorem lookupEntry_manageCacheSize_newest (limit : Nat) (m : Bucket) (key : String)
    (e : CacheEntry) (hnone : lookupEntry m key = none)
    (hts : ∀ p ∈ m, p.2.timestamp ≤ e.timestamp) :
    lookupEntry (manageCacheSize limit (m ++ [(key, e)])) key = some e := by
  have hlookup2 : lookupEntry (m ++ [(key, e)]) key = some e := by
    rw [lookupEntry_append_right m [(key, e)] key hnone]
    simp [lookupEntry]
  by_cases hlen : (m ++ [(key, e)]).length > limit
  · rw [manageCacheSize_eq_of_gt limit (m ++ [(key, e)]) hlen]
    have hsort : sortByTimestamp (m ++ [(key, e)]) = sortByTimestamp m ++ [(key, e)] :=
      sortByTimestamp_append_newest m (key, e) hts
    rw [hsort]
    have hslen : (sortByTimestamp m).length = m.length := sortByTimestamp_length m
    have hcount : (sortByTimestamp m ++ [(key, e)]).length * 2 / 10 ≤ (sortByTimestamp m).length := by
      simp only [List.length_append, List.length_cons, List.length_nil, hslen]
      omega
    rw [List.take_append_of_le_length hcount]
    have hkeys : ∀ x ∈ (sortByTimestamp m).take ((sortByTimestamp m ++ [(key, e)]).length * 2 / 10),
        x.1 ≠ key := by
      intro x hx
      have hxm : x ∈ m := (sortByTimestamp_perm m).mem_iff.mp (List.mem_of_mem_take hx)
      exact lookupEntry_none_forall m key hnone x hxm
    rw [foldl_deleteKey_lookup _ _ _ hkeys]
    exact hlookup2
  · rw [manageCacheSize_eq_of_le limit (m ++ [(key, e)]) hlen]
    exact hlookup2

theorem handleCachedRequest_hit_result (type : ApiCategory) (key : String)
    (tNow tResp : Nat) (u : UpstreamOutcome) (s : ServerState) (e : CacheEntry)
    (hlook : lookupEntry (s.cache.get type) key = some e)
    (hfresh : tNow - e.timestamp < CACHE_EXPIRY type) :
    (handleCachedRequest type key tNow tResp u s).result = .ok e.data ∧
    (handleCachedRequest type key tNow tResp u s).upstreamCalls = 0 := by
  simp only [handleCachedRequest, cacheGetStep, hlook, if_pos hfresh]
  simp

/-! ## C5: cache idempotence -/

/-- C5: two consecutive fetches of the same category and key — the first a
cache miss that passes the quota and rate gates and gets a valid provider
reply, the second within the expiry window — issue exactly one external
call (on the first fetch) and return the identical payload twice, whatever
the second call's would-be upstream outcome.  (`hts` says the existing
entries were stored at or before the first reply's time, i.e. stored
timestamps do not lie in the future.) -/
theorem c5_cache_idempotence (type : ApiCategory) (key : String) (t1 t1r t2 t2r : Nat)
    (d : GData) (u2 : UpstreamOutcome) (s : ServerState)
    (hmiss : lookupEntry (s.cache.get type) key = none)
    (hquota : s.requestStats.total < s.requestStats.limit)
    (hrate : s.rateLimiter.minInterval ≤ t1 - s.rateLimiter.lastFor type)
    (hstatus : d.status = "OK" ∨ d.status = "ZERO_RESULTS")
    (hts : ∀ p ∈ s.cache.get type, p.2.timestamp ≤ t1r)
    (hfresh : t2 - t1r < CACHE_EXPIRY type) :
    (handleCachedRequest type key t1 t1r (.reply d) s).result = .ok d ∧
    (handleCachedRequest type key t1 t1r (.reply d) s).upstreamCalls = 1 ∧
    (handleCachedRequest type key t2 t2r u2
       (handleCachedRequest type key t1 t1r (.reply d) s).state).result = .ok d ∧
    (handleCachedRequest type key t2 t2r u2
       (handleCachedRequest type key t1 t1r (.reply d) s).state).upstreamCalls = 0 := by
  have hmiss' : (cacheGetStep type key t1 s).1 = none := by
    unfold cacheGetStep
    rw [hmiss]
  have hstat' : ¬(d.status ≠ "OK" ∧ d.status ≠ "ZERO_RESULTS") := by
    rcases hstatus with h | h <;> simp [h]
  have h1 := handleCachedRequest_miss_reply_ok type key t1 t1r d s hmiss' hquota hrate hstat'
  have hlook2 : lookupEntry
      ((handleCachedRequest type key t1 t1r (.reply d) s).state.cache.get type) key =
      some ⟨d, t1r, t1r⟩ := by
    rw [h1]
    show lookupEntry ((s.cache.put type _).get type) key = _
    rw [Caches.get_put_same, setEntry_of_none (s.cache.get type) key ⟨d, t1r, t1r⟩ hmiss]
    exact lookupEntry_manageCacheSize_newest (CACHE_LIMITS type) (s.cache.get type) key
      ⟨d, t1r, t1r⟩ hmiss hts
  have h2 := handleCachedRequest_hit_result type key t2 t2r u2
    (handleCachedRequest type key t1 t1r (.reply d) s).state ⟨d, t1r, t1r⟩ hlook2 hfresh
  exact ⟨by rw [h1], by rw [h1], h2.1, h2.2⟩

/-- C5 witness: a fresh state, first fetch at 1000 with an OK reply, second
fetch at 2000 (within the 30-minute geocoding expiry) with a different
would-be upstream reply: both return the first payload, only the first
issues a call. -/
theorem c5_cache_idempotence_witness :
    (lookupEntry (((initialState 0).cache.get .geocoding)) "k" = none ∧
     (initialState 0).requestStats.total < (initialState 0).requestStats.limit ∧
     (initialState 0).rateLimiter.minInterval ≤
       1000 - (initialState 0).rateLimiter.lastFor .geocoding ∧
     (("OK" : String) = "OK" ∨ ("OK" : String) = "ZERO_RESULTS") ∧
     (∀ p ∈ (initialState 0).cache.get .geocoding, p.2.timestamp ≤ 1000) ∧
     (2000 : Nat) - 1000 < CACHE_EXPIRY .geocoding) ∧
    ((handleCachedRequest .geocoding "k" 1000 1000 (.reply ⟨"OK", "b"⟩)
        (initialState 0)).result = .ok ⟨"OK", "b"⟩ ∧
     (handleCachedRequest .geocoding "k" 1000 1000 (.reply ⟨"OK", "b"⟩)
        (initialState 0)).upstreamCalls = 1 ∧
     (handleCachedRequest .geocoding "k" 2000 2000 (.reply ⟨"OK", "other"⟩)
        (handleCachedRequest .geocoding "k" 1000 1000 (.reply ⟨"OK", "b"⟩)
          (initialState 0)).state).result = .ok ⟨"OK", "b"⟩ ∧
     (handleCachedRequest .geocoding "k" 2000 2000 (.reply ⟨"OK", "other"⟩)
        (handleCachedRequest .geocoding "k" 1000 1000 (.reply ⟨"OK", "b"⟩)
          (initialState 0)).state).upstreamCalls = 0) :=
  ⟨⟨rfl, by decide, by decide, Or.inl rfl,
    fun p hp => absurd hp (List.not_mem_nil p), by decide⟩,
   c5_cache_idempotence .geocoding "k" 1000 1000 2000 2000 ⟨"OK", "b"⟩
     (.reply ⟨"OK", "other"⟩) (initialState 0) rfl (by decide) (by decide)
     (Or.inl rfl) (fun p hp => absurd hp (List.not_mem_nil p)) (by decide)⟩

/-! ## C3: eviction -/

theorem deleteKey_sublist (b : Bucket) (key : String) :
    List.Sublist (deleteKey b key) b := by
  induction b with
  | nil => exact List.Sublist.refl _
  | cons x rest ih =>
    unfold deleteKey
    by_cases hx : x.1 = key
    · rw [if_pos hx]
      exact List.sublist_cons_self x rest
    · rw [if_neg hx]
      exact ih.cons₂ x

theorem perm_cons_deleteKey (m : Bucket) (x : String × CacheEntry)
    (hnodup : (m.map Prod.fst).Nodup) (hx : x ∈ m) :
    List.Perm m (x :: deleteKey m x.1) := by
  induction m with
  | nil => cases hx
  | cons y rest ih =>
    rw [List.map_cons] at hnodup
    have hnd := List.nodup_cons.mp hnodup
    by_cases hy : y.1 = x.1
    · have hyx : y = x := by
        rcases List.mem_cons.mp hx with rfl | hxr
        · rfl
        · have hmem : y.1 ∈ rest.map Prod.fst := by
            rw [hy]
            exact List.mem_map_of_mem Prod.fst hxr
          exact absurd hmem hnd.1
      subst hyx
      unfold deleteKey
      rw [if_pos rfl]
    · have hxr : x ∈ rest := by
        rcases List.mem_cons.mp hx with rfl | hxr
        · exact absurd rfl hy
        · exact hxr
      have ihp := ih hnd.2 hxr
      unfold deleteKey
      rw [if_neg hy]
      exact (ihp.cons y).trans (List.Perm.swap x y (deleteKey rest x.1))

theorem foldl_deleteKey_perm (l1 : Bucket) : ∀ (m l2 : Bucket),
    (m.map Prod.fst).Nodup → List.Perm m (l1 ++ l2) →
    List.Perm (l1.foldl (fun acc e => deleteKey acc e.1) m) l2 := by
  induction l1 with
  | nil => intro m l2 _ hp; simpa using hp
  | cons x l1 ih =>
    intro m l2 hnodup hp
    have hx : x ∈ m := hp.mem_iff.mpr (by simp)
    have hcons : List.Perm m (x :: deleteKey m x.1) := perm_cons_deleteKey m x hnodup hx
    have hperm2 : List.Perm (deleteKey m x.1) (l1 ++ l2) :=
      (hcons.symm.trans hp).cons_inv
    have hnodup2 : ((deleteKey m x.1).map Prod.fst).Nodup :=
      hnodup.sublist ((deleteKey_sublist m x.1).map Prod.fst)
    show List.Perm (l1.foldl _ (deleteKey m x.1)) l2
    exact ih (deleteKey m x.1) l2 hnodup2 hperm2

theorem manageCacheSize_perm_drop (limit : Nat) (m : Bucket)
    (hnodup : (m.map Prod.fst).Nodup) (h : m.length > limit) :
    List.Perm (manageCacheSize limit m)
      ((sortByTimestamp m).drop ((sortByTimestamp m).length * 2 / 10)) := by
  rw [manageCacheSize_eq_of_gt limit m h]
  refine foldl_deleteKey_perm _ m _ hnodup ?_
  rw [List.take_append_drop]
  exact (sortByTimestamp_perm m).symm

/-- C3 counterexample: with limit 10, thirteen distinct keys inserted at
increasing times leave 9 entries, not 10: eviction fires on the 11th and
13th inserts, each removing floor(11 * 0.2) = 2 of the oldest, so keys
"1"–"4" are gone and "5"–"13" remain. -/
theorem c3_counterexample :
    (evictionScenario 13).length = 9 ∧
    (evictionScenario 13).length ≠ 10 ∧
    (evictionScenario 13).map Prod.fst =
      ["5", "6", "7", "8", "9", "10", "11", "12", "13"] :=
  ⟨rfl, by decide, rfl⟩

/-- C3 (amended): inserting 13 distinct keys with limit 10 leaves exactly 9
entries — the 4 oldest by `storedAt` absent, the newest 9 present; in
general, whenever a bucket with distinct keys exceeds the limit, eviction
removes the floor of 20% of the entries, oldest-by-`storedAt` first (every
evicted entry is at least as old as every survivor), and a bucket at or
under the limit is untouched. -/
theorem c3_eviction (limit : Nat) (m : Bucket) :
    ((evictionScenario 13).length = 9 ∧
     (evictionScenario 13).map Prod.fst =
       ["5", "6", "7", "8", "9", "10", "11", "12", "13"]) ∧
    ((m.map Prod.fst).Nodup → m.length > limit →
      (manageCacheSize limit m).length = m.length - m.length * 2 / 10 ∧
      (∀ p ∈ manageCacheSize limit m, p ∈ m) ∧
      (∀ q ∈ m, q ∉ manageCacheSize limit m →
        ∀ p ∈ manageCacheSize limit m, q.2.timestamp ≤ p.2.timestamp)) ∧
    (m.length ≤ limit → manageCacheSize limit m = m) := by
  refine ⟨⟨rfl, rfl⟩, ?_, fun hle => manageCacheSize_eq_of_le limit m (Nat.not_lt.mpr hle)⟩
  intro hnodup hgt
  have hperm := manageCacheSize_perm_drop limit m hnodup hgt
  have hslen : (sortByTimestamp m).length = m.length := sortByTimestamp_length m
  refine ⟨?_, ?_, ?_⟩
  · have hlen := hperm.length_eq
    rw [List.length_drop, hslen] at hlen
    exact hlen
  · intro p hp
    exact (sortByTimestamp_perm m).mem_iff.mp
      (List.mem_of_mem_drop (hperm.mem_iff.mp hp))
  · intro q hq hqout p hp
    have hsplit : (sortByTimestamp m).take ((sortByTimestamp m).length * 2 / 10) ++
        (sortByTimestamp m).drop ((sortByTimestamp m).length * 2 / 10) = sortByTimestamp m :=
      List.take_append_drop ((sortByTimestamp m).length * 2 / 10) (sortByTimestamp m)
    have hsorted : List.Pairwise (fun a b => a.2.timestamp ≤ b.2.timestamp)
        ((sortByTimestamp m).take ((sortByTimestamp m).length * 2 / 10) ++
         (sortByTimestamp m).drop ((sortByTimestamp m).length * 2 / 10)) := by
      rw [hsplit]
      exact sortByTimestamp_pairwise m
    have hqsort : q ∈ sortByTimestamp m := (sortByTimestamp_perm m).mem_iff.mpr hq
    have hpdrop : p ∈ (sortByTimestamp m).drop ((sortByTimestamp m).length * 2 / 10) :=
      hperm.mem_iff.mp hp
    have hqtake : q ∈ (sortByTimestamp m).take ((sortByTimestamp m).length * 2 / 10) := by
      have hq2 : q ∈ (sortByTimestamp m).take ((sortByTimestamp m).length * 2 / 10) ++
          (sortByTimestamp m).drop ((sortByTimestamp m).length * 2 / 10) := by
        rw [hsplit]
        exact hqsort
      rcases List.mem_append.mp hq2 with hq1 | hq2
      · exact hq1
      · exact absurd (hperm.mem_iff.mpr hq2) hqout
    exact (List.pairwise_append.mp hsorted).2.2 q hqtake p hpdrop

/-- C3 witness: the general eviction statement at a concrete five-entry
bucket with limit 4: floor(5 * 0.2) = 1 entry is evicted, the oldest. -/
theorem c3_eviction_witness :
    (([("a", (⟨⟨"OK", ""⟩, 1, 1⟩ : CacheEntry)), ("b", ⟨⟨"OK", ""⟩, 2, 2⟩),
       ("c", ⟨⟨"OK", ""⟩, 3, 3⟩), ("d", ⟨⟨"OK", ""⟩, 4, 4⟩),
       ("e", ⟨⟨"OK", ""⟩, 5, 5⟩)].map Prod.fst).Nodup ∧
     ([("a", (⟨⟨"OK", ""⟩, 1, 1⟩ : CacheEntry)), ("b", ⟨⟨"OK", ""⟩, 2, 2⟩),
       ("c", ⟨⟨"OK", ""⟩, 3, 3⟩), ("d", ⟨⟨"OK", ""⟩, 4, 4⟩),
       ("e", ⟨⟨"OK", ""⟩, 5, 5⟩)].length > 4)) ∧
    (manageCacheSize 4
       [("a", ⟨⟨"OK", ""⟩, 1, 1⟩), ("b", ⟨⟨"OK", ""⟩, 2, 2⟩), ("c", ⟨⟨"OK", ""⟩, 3, 3⟩),
        ("d", ⟨⟨"OK", ""⟩, 4, 4⟩), ("e", ⟨⟨"OK", ""⟩, 5, 5⟩)]).length =
      [("a", (⟨⟨"OK", ""⟩, 1, 1⟩ : CacheEntry)), ("b", ⟨⟨"OK", ""⟩, 2, 2⟩),
       ("c", ⟨⟨"OK", ""⟩, 3, 3⟩), ("d", ⟨⟨"OK", ""⟩, 4, 4⟩),
       ("e", ⟨⟨"OK", ""⟩, 5, 5⟩)].length -
      [("a", (⟨⟨"OK", ""⟩, 1, 1⟩ : CacheEntry)), ("b", ⟨⟨"OK", ""⟩, 2, 2⟩),
       ("c", ⟨⟨"OK", ""⟩, 3, 3⟩), ("d", ⟨⟨"OK", ""⟩, 4, 4⟩),
       ("e", ⟨⟨"OK", ""⟩, 5, 5⟩)].length * 2 / 10 :=
  ⟨⟨by decide, by decide⟩,
   ((c3_eviction 4
      [("a", ⟨⟨"OK", ""⟩, 1, 1⟩), ("b", ⟨⟨"OK", ""⟩, 2, 2⟩), ("c", ⟨⟨"OK", ""⟩, 3, 3⟩),
       ("d", ⟨⟨"OK", ""⟩, 4, 4⟩), ("e", ⟨⟨"OK", ""⟩, 5, 5⟩)]).2.1
      (by decide) (by decide)).1⟩

/-! ## C8: batch aggregation -/

theorem chunks5_nil : chunks5 [] = [] := by
  rw [chunks5]

theorem chunks5_cons (a : String) (rest : List String) :
    chunks5 (a :: rest) = (a :: rest.take 4) :: chunks5 (rest.drop 4) := by
  rw [chunks5]

theorem mapBatch_append (outcome : Nat → String → Except ReqError GData)
    (l1 : List String) : ∀ (i : Nat) (l2 : List String),
    mapBatch outcome i (l1 ++ l2) =
      mapBatch outcome i l1 ++ mapBatch outcome (i + l1.length) l2 := by
  induction l1 with
  | nil => intro i l2; simp [mapBatch]
  | cons a l1 ih =>
    intro i l2
    show processGeocodeItem (outcome i a) a :: mapBatch outcome (i + 1) (l1 ++ l2) = _
    rw [ih (i + 1) l2]
    have harith : i + 1 + l1.length = i + (l1.length + 1) := by omega
    rw [harith]
    rfl

theorem collectBatchResults_append (r1 : List BatchItemRes) : ∀ (r2 : List BatchItemRes)
    (acc : BatchOut),
    collectBatchResults (r1 ++ r2) acc = collectBatchResults r2 (collectBatchResults r1 acc) := by
  induction r1 with
  | nil => intro r2 acc; rfl
  | cons r r1 ih =>
    intro r2 acc
    by_cases he : r.error ≠ ""
    · simp only [List.cons_append, collectBatchResults, if_pos he]
      exact ih r2 _
    · simp only [List.cons_append, collectBatchResults, if_neg he]
      exact ih r2 _

theorem collectBatchResults_mapBatch (outcome : Nat → String → Except ReqError GData)
    (l : List String) : ∀ (i : Nat) (acc : BatchOut),
    collectBatchResults (mapBatch outcome i l) acc =
      ⟨acc.results ++ flatSucceeded outcome i l, acc.errors ++ flatFailed outcome i l⟩ := by
  induction l with
  | nil => intro i acc; simp [mapBatch, collectBatchResults, flatSucceeded, flatFailed]
  | cons a l ih =>
    intro i acc
    simp only [mapBatch, collectBatchResults, flatSucceeded, flatFailed]
    by_cases he : (processGeocodeItem (outcome i a) a).error ≠ ""
    · rw [if_pos he, if_pos he, if_pos he, ih]
      simp [List.append_assoc]
    · rw [if_neg he, if_neg he, if_neg he, ih]
      simp [List.append_assoc]

theorem runGeocodeBatches_eq (outcome : Nat → String → Except ReqError GData) :
    ∀ (n : Nat) (l : List String), l.length ≤ n → ∀ (i : Nat) (acc : BatchOut),
    runGeocodeBatches outcome i (chunks5 l) acc =
      collectBatchResults (mapBatch outcome i l) acc := by
  intro n
  induction n with
  | zero =>
    intro l hl i acc
    have hnil : l = [] := List.eq_nil_of_length_eq_zero (Nat.le_zero.mp hl)
    subst hnil
    rw [chunks5_nil]
    rfl
  | succ n ih =>
    intro l hl i acc
    cases l with
    | nil =>
      rw [chunks5_nil]
      rfl
    | cons a rest =>
      rw [chunks5_cons]
      show runGeocodeBatches outcome (i + (a :: rest.take 4).length) (chunks5 (rest.drop 4))
        (collectBatchResults (mapBatch outcome i (a :: rest.take 4)) acc) = _
      rw [ih (rest.drop 4) (by simp [List.length_drop] at hl ⊢; omega)]
      rw [← collectBatchResults_append]
      rw [← mapBatch_append]
      have hsplit : (a :: rest.take 4) ++ rest.drop 4 = a :: rest := by
        show a :: (rest.take 4 ++ rest.drop 4) = a :: rest
        rw [List.take_append_drop]
      rw [hsplit]

theorem flat_length (outcome : Nat → String → Except ReqError GData)
    (l : List String) : ∀ i : Nat,
    (flatSucceeded outcome i l).length + (flatFailed outcome i l).length = l.length := by
  induction l with
  | nil => intro i; rfl
  | cons a l ih =>
    intro i
    simp only [flatSucceeded, flatFailed]
    by_cases he : (processGeocodeItem (outcome i a) a).error ≠ ""
    · rw [if_pos he, if_pos he]
      simp only [List.length_cons]
      rw [← ih (i + 1)]
      omega
    · rw [if_neg he, if_neg he]
      simp only [List.length_cons]
      rw [← ih (i + 1)]
      omega

/-- C8: for every non-empty address list and every assignment of per-item
gateway outcomes, the batch endpoint succeeds (it never throws for partial
failure; only the empty list is rejected) and returns exactly the in-order
partition of the inputs: `results` lists, in input order, every item whose
outcome is not a truthy error, and `errors` lists, in input order, every
item whose outcome is a truthy error — so each input lands in exactly one
of the two sequences, and the lengths add up to the input length. -/
theorem c8_batch_partition (outcome : Nat → String → Except ReqError GData)
    (addresses : List String) (h : addresses ≠ []) :
    apiBatchGeocode outcome addresses =
      .ok ⟨flatSucceeded outcome 0 addresses, flatFailed outcome 0 addresses⟩ ∧
    (flatSucceeded outcome 0 addresses).length +
      (flatFailed outcome 0 addresses).length = addresses.length := by
  constructor
  · unfold apiBatchGeocode
    have hne : addresses.isEmpty = false := by
      cases addresses with
      | nil => exact absurd rfl h
      | cons a rest => rfl
    rw [hne]
    show Except.ok (batchGeocode outcome addresses) = _
    unfold batchGeocode
    rw [runGeocodeBatches_eq outcome addresses.length addresses (Nat.le_refl _) 0 ⟨[], []⟩]
    rw [collectBatchResults_mapBatch]
    simp
  · exact flat_length outcome addresses 0

/-- C8 witness: three addresses where the middle one fails: the call
succeeds with the first and third in `results` and the second in `errors`. -/
theorem c8_batch_partition_witness :
    (["a", "", "b"] : List String) ≠ [] ∧
    (apiBatchGeocode
        (fun _ a => if a = "" then .error (.googleError "INVALID_REQUEST")
          else .ok ⟨"OK", a⟩) ["a", "", "b"] =
      .ok ⟨flatSucceeded
            (fun _ a => if a = "" then .error (.googleError "INVALID_REQUEST")
              else .ok ⟨"OK", a⟩) 0 ["a", "", "b"],
           flatFailed
            (fun _ a => if a = "" then .error (.googleError "INVALID_REQUEST")
              else .ok ⟨"OK", a⟩) 0 ["a", "", "b"]⟩ ∧
     (flatSucceeded
        (fun _ a => if a = "" then .error (.googleError "INVALID_REQUEST")
          else .ok ⟨"OK", a⟩) 0 ["a", "", "b"]).length +
       (flatFailed
        (fun _ a => if a = "" then .error (.googleError "INVALID_REQUEST")
          else .ok ⟨"OK", a⟩) 0 ["a", "", "b"]).length = 3) :=
  ⟨by simp,
   c8_batch_partition
     (fun _ a => if a = "" then .error (.googleError "INVALID_REQUEST")
       else .ok ⟨"OK", a⟩) ["a", "", "b"] (by simp)⟩
